import Mathlib

/-!
# Verification of hitpag's format-recognition and operation-inference core

Shallow embedding of `src/main.cpp` of the hitpag compression front end
(namespaces `file_type`, `operation`, `target_path` and the relevant parts
of `main`), together with theorems settling the specification claims.

Filesystem state is abstracted as boolean predicates and a byte-content
function; paths are modelled as strings (POSIX separators), and canonical
absolute paths additionally as lists of name components.
-/

set_option autoImplicit false

namespace Hitpag

/-- `file_type::FileType` from `main.cpp`. -/
inductive FileType where
  | REGULAR_FILE
  | DIRECTORY
  | ARCHIVE_TAR
  | ARCHIVE_TAR_GZ
  | ARCHIVE_TAR_BZ2
  | ARCHIVE_TAR_XZ
  | ARCHIVE_ZIP
  | ARCHIVE_RAR
  | ARCHIVE_7Z
  | ARCHIVE_LZ4
  | ARCHIVE_ZSTD
  | ARCHIVE_XAR
  | UNKNOWN
  deriving DecidableEq, Repr

/-- `file_type::OperationType` from `main.cpp`. -/
inductive OperationType where
  | COMPRESS
  | DECOMPRESS
  | UNKNOWN
  deriving DecidableEq, Repr

/-- `error::ErrorCode` from `main.cpp` (only the codes the core can raise). -/
inductive ErrorCode where
  | MISSING_ARGS
  | INVALID_SOURCE
  | INVALID_TARGET
  | SAME_PATH
  | UNKNOWN_FORMAT
  | TOOL_NOT_FOUND
  | OPERATION_FAILED
  deriving DecidableEq, Repr

/-! ## String-level model of the `std::filesystem::path` operations used -/

/-- Characters of the filename component: everything after the last `/`
(models `fs::path::filename` for POSIX path strings). -/
def filenameChars (cs : List Char) : List Char :=
  (cs.reverse.takeWhile (fun c => c ≠ '/')).reverse

/-- `fs::path::filename().string()`. -/
def filenameOf (s : String) : String :=
  String.mk (filenameChars s.toList)

/-- `fs::path::parent_path().string()` for POSIX path strings:
everything before the last separator ("/" when that prefix is empty,
"" when there is no separator). -/
def parentOf (s : String) : String :=
  let cs := s.toList
  let f := filenameChars cs
  if f.length = cs.length then ""
  else
    let p := cs.take (cs.length - f.length - 1)
    if p = [] then "/" else String.mk p

/-- Index of the last `.` in a character list, if any. -/
def lastDotIdx (cs : List Char) : Option Nat :=
  let tailLen := (cs.reverse.takeWhile (fun c => c ≠ '.')).length
  if tailLen = cs.length then none else some (cs.length - tailLen - 1)

/-- `fs::path::extension().string()`: taken from the filename's last dot;
empty for `.`, `..`, dotfiles (dot at position 0) and names without a dot. -/
def extensionOf (s : String) : String :=
  let f := filenameChars s.toList
  if f = ['.'] ∨ f = ['.', '.'] then ""
  else
    match lastDotIdx f with
    | none => ""
    | some 0 => ""
    | some i => String.mk (f.drop i)

/-- `fs::path::stem().string()`: the filename minus its extension. -/
def stemOf (s : String) : String :=
  let f := filenameChars s.toList
  String.mk (f.take (f.length - (extensionOf s).length))

/-- Byte-level suffix test on strings (`std::string::compare` against the
tail, as the C++ code does). -/
def strEndsWith (s suffix : String) : Bool :=
  suffix.toList.isSuffixOf s.toList

/-- Drop `n` characters from the end of a string
(`std::string::substr(0, size - n)`). -/
def dropRightStr (s : String) (n : Nat) : String :=
  String.mk (s.toList.take (s.toList.length - n))

/-- `fs::path::replace_extension(newExt).string()`: drop the current
extension and append `newExt` (which carries its own leading dot). -/
def replaceExtension (s newExt : String) : String :=
  dropRightStr s (extensionOf s).length ++ newExt

/-- `parent / name` (`fs::path::operator/`) rendered as a string. -/
def joinPath (parent name : String) : String :=
  if parent = "" then name
  else if strEndsWith parent "/" then parent ++ name
  else parent ++ "/" ++ name

/-- ASCII lower-casing of a string (`std::tolower` applied per character,
as in the C++ `std::transform` calls). -/
def lowerStr (s : String) : String :=
  String.mk (s.toList.map Char.toLower)

/-- `util::trim_copy`: strip leading and trailing `" \t\n\r"`. -/
def trimCopy (s : String) : String :=
  let ws := fun c => c = ' ' ∨ c = '\t' ∨ c = '\n' ∨ c = '\r'
  String.mk (((s.toList.dropWhile ws).reverse.dropWhile ws).reverse)

/-! ## `file_type`: extension classification -/

/-- `file_type::is_split_zip_extension`: a 4-character lower-cased
extension `.z` followed by two ASCII digits. -/
def is_split_zip_extension (ext : String) : Bool :=
  match ext.toList with
  | ['.', 'z', c2, c3] => c2.isDigit && c3.isDigit
  | _ => false

/-- `file_type::recognize_by_extension`. -/
def recognize_by_extension (path_str : String) : FileType :=
  if extensionOf path_str = "" then FileType.UNKNOWN
  else
    let ext := lowerStr (extensionOf path_str)
    if ext = ".tar" then FileType.ARCHIVE_TAR
    else if ext = ".zip" then FileType.ARCHIVE_ZIP
    else if is_split_zip_extension ext then FileType.ARCHIVE_ZIP
    else if ext = ".rar" then FileType.ARCHIVE_RAR
    else if ext = ".7z" then FileType.ARCHIVE_7Z
    else if ext = ".lz4" then FileType.ARCHIVE_LZ4
    else if ext = ".zst" ∨ ext = ".zstd" then FileType.ARCHIVE_ZSTD
    else if ext = ".xar" then FileType.ARCHIVE_XAR
    else if ext = ".tgz" then FileType.ARCHIVE_TAR_GZ
    else if ext = ".tbz2" ∨ ext = ".tbz" then FileType.ARCHIVE_TAR_BZ2
    else if ext = ".txz" then FileType.ARCHIVE_TAR_XZ
    else
      -- double extensions like ".tar.gz": inspect the stem's extension
      let stem := stemOf path_str
      if stem ≠ "" ∧ lowerStr (extensionOf stem) = ".tar" then
        if ext = ".gz" then FileType.ARCHIVE_TAR_GZ
        else if ext = ".bz2" then FileType.ARCHIVE_TAR_BZ2
        else if ext = ".xz" then FileType.ARCHIVE_TAR_XZ
        else FileType.UNKNOWN
      else FileType.UNKNOWN

/-- `file_type::parse_format_string` (for `--format=`). -/
def parse_format_string (format_str : String) : FileType :=
  let fmt := lowerStr format_str
  if fmt = "zip" then FileType.ARCHIVE_ZIP
  else if fmt = "7z" then FileType.ARCHIVE_7Z
  else if fmt = "tar" then FileType.ARCHIVE_TAR
  else if fmt = "tar.gz" ∨ fmt = "tgz" then FileType.ARCHIVE_TAR_GZ
  else if fmt = "tar.bz2" ∨ fmt = "tbz2" then FileType.ARCHIVE_TAR_BZ2
  else if fmt = "tar.xz" ∨ fmt = "txz" then FileType.ARCHIVE_TAR_XZ
  else if fmt = "rar" then FileType.ARCHIVE_RAR
  else if fmt = "lz4" then FileType.ARCHIVE_LZ4
  else if fmt = "zstd" ∨ fmt = "zst" then FileType.ARCHIVE_ZSTD
  else if fmt = "xar" then FileType.ARCHIVE_XAR
  else FileType.UNKNOWN

/-! ## `file_type`: binary-signature sniffing

File contents are byte lists (`List Nat`, each entry `< 256`).  `b i`
reads the byte at offset `i` (the C++ buffers are zero-initialised, so a
default of `0` matches unread positions). -/

/-- Scan of the first 100 bytes of a candidate legacy-tar block
(`recognize_by_header`'s final loop).  Returns
`(looks_like_tar, has_filename)`: the loop breaks with
`looks_like_tar = false` at the first non-null, non-printable byte. -/
def tarNameScan : List Nat → Bool → Bool × Bool
  | [], has => (true, has)
  | v :: rest, has =>
    if v ≠ 0 then
      if v < 32 ∨ v > 126 then (false, true)
      else tarNameScan rest true
    else tarNameScan rest has

/-- `file_type::recognize_by_header`.

The first read asks for 16 bytes; `gcount` is what is available.  The C++
code then returns `UNKNOWN` when `gcount() < 4 || fail()`, and
`istream::read` sets the fail bit exactly when fewer bytes than requested
were extracted — so every file shorter than 16 bytes yields `UNKNOWN`.
The tar checks re-read at offset 257 (6 bytes, needing `gcount >= 5`) and
offset 0 (512 bytes, needing all 512). -/
def recognize_by_header (bytes : List Nat) : FileType :=
  let len := bytes.length
  let gcount := min 16 len
  if gcount < 4 ∨ len < 16 then FileType.UNKNOWN
  else
    let b := fun i => bytes.getD i 0
    -- ZIP local/end-central/central-directory signatures
    if b 0 = 0x50 ∧ b 1 = 0x4B ∧
        ((b 2 = 0x03 ∧ b 3 = 0x04) ∨ (b 2 = 0x05 ∧ b 3 = 0x06) ∨
         (b 2 = 0x01 ∧ b 3 = 0x02)) then FileType.ARCHIVE_ZIP
    -- "Rar!"
    else if b 0 = 0x52 ∧ b 1 = 0x61 ∧ b 2 = 0x72 ∧ b 3 = 0x21 then
      FileType.ARCHIVE_RAR
    -- 7-Zip magic (6 bytes)
    else if 6 ≤ gcount ∧ b 0 = 0x37 ∧ b 1 = 0x7A ∧ b 2 = 0xBC ∧ b 3 = 0xAF ∧
        b 4 = 0x27 ∧ b 5 = 0x1C then FileType.ARCHIVE_7Z
    -- GZIP (classified as tar.gz by default)
    else if b 0 = 0x1F ∧ b 1 = 0x8B then FileType.ARCHIVE_TAR_GZ
    -- "BZh"
    else if b 0 = 0x42 ∧ b 1 = 0x5A ∧ b 2 = 0x68 then FileType.ARCHIVE_TAR_BZ2
    -- XZ magic (6 bytes)
    else if 6 ≤ gcount ∧ b 0 = 0xFD ∧ b 1 = 0x37 ∧ b 2 = 0x7A ∧ b 3 = 0x58 ∧
        b 4 = 0x5A ∧ b 5 = 0x00 then FileType.ARCHIVE_TAR_XZ
    -- LZ4 frame magic
    else if b 0 = 0x04 ∧ b 1 = 0x22 ∧ b 2 = 0x4D ∧ b 3 = 0x18 then
      FileType.ARCHIVE_LZ4
    -- Zstandard frame magics
    else if (b 0 = 0x28 ∧ b 1 = 0xB5 ∧ b 2 = 0x2F ∧ b 3 = 0xFD) ∨
        (b 0 = 0x22 ∧ b 1 = 0xB5 ∧ b 2 = 0x2F ∧ b 3 = 0xFD) then
      FileType.ARCHIVE_ZSTD
    else
      -- "ustar" at offset 257 (seek + 6-byte read, needs gcount >= 5)
      let g257 := min 6 (len - 257)
      if 5 ≤ g257 ∧ b 257 = 0x75 ∧ b 258 = 0x73 ∧ b 259 = 0x74 ∧
          b 260 = 0x61 ∧ b 261 = 0x72 then FileType.ARCHIVE_TAR
      else
        -- legacy tar: full 512-byte block, printable filename field
        let g512 := min 512 len
        if 512 ≤ g512 then
          let scan := tarNameScan (bytes.take 100) false
          if scan.1 ∧ scan.2 then FileType.ARCHIVE_TAR else FileType.UNKNOWN
        else FileType.UNKNOWN

/-! ## Abstract filesystem and `file_type::recognize` -/

/-- The filesystem facts the core consults: existence, kind, raw bytes,
and `fs::equivalent` (same inode) as a boolean relation. -/
structure FS where
  present : String → Bool
  isDir : String → Bool
  isFile : String → Bool
  content : String → List Nat
  equiv : String → String → Bool

/-- `file_type::recognize_source_type`: directories are `DIRECTORY`;
regular files are sniffed by header first, then by extension, and default
to `REGULAR_FILE`; anything else is `InvalidSource`. -/
def recognize_source_type (fs : FS) (source_path : String) :
    Except ErrorCode FileType :=
  if fs.present source_path = false then Except.error ErrorCode.INVALID_SOURCE
  else if fs.isDir source_path then Except.ok FileType.DIRECTORY
  else if fs.isFile source_path then
    let t := recognize_by_header (fs.content source_path)
    let t := if t = FileType.UNKNOWN then recognize_by_extension source_path else t
    Except.ok (if t = FileType.UNKNOWN then FileType.REGULAR_FILE else t)
  else Except.error ErrorCode.INVALID_SOURCE

/-- `file_type::RecognitionResult`. -/
structure RecognitionResult where
  source_type : FileType
  target_type_hint : FileType
  operation : OperationType
  deriving DecidableEq, Repr

/-- `file_type::recognize`. -/
def recognize (fs : FS) (source_path target_path : String) :
    Except ErrorCode RecognitionResult :=
  match recognize_source_type fs source_path with
  | Except.error e => Except.error e
  | Except.ok st =>
    let hint := if target_path ≠ "" then recognize_by_extension target_path
                else FileType.UNKNOWN
    let target_is_archive :=
      hint ≠ FileType.UNKNOWN ∧ hint ≠ FileType.REGULAR_FILE ∧
      hint ≠ FileType.DIRECTORY
    if st = FileType.DIRECTORY ∨ st = FileType.REGULAR_FILE then
      if target_is_archive then
        Except.ok ⟨st, hint, OperationType.COMPRESS⟩
      else
        Except.ok ⟨st, FileType.UNKNOWN, OperationType.COMPRESS⟩
    else
      if fs.present target_path ∧ fs.isDir target_path = false then
        Except.error ErrorCode.INVALID_TARGET
      else
        Except.ok ⟨st, hint, OperationType.DECOMPRESS⟩

/-! ## `target_path`: conflict resolution -/

/-- `target_path::generate_sequential_candidate`: insert `_<N>` before the
extension, treating the listed compound tar extensions as a unit and
replacing an empty/`.`/`..` stem by the placeholder `"target"`. -/
def generate_sequential_candidate (base_path : String) (suffix_index : Nat) :
    String :=
  let parent := parentOf base_path
  let filename := filenameOf base_path
  let multi_extensions := [".tar.gz", ".tar.bz2", ".tar.xz", ".tar.zst", ".tar.lz4"]
  let stemExt :=
    match multi_extensions.find?
        (fun e => e.length < filename.length ∧ strEndsWith filename e = true) with
    | some e => (dropRightStr filename e.length, e)
    | none => ("", "")
  let stemExt :=
    if stemExt.1 = "" then
      match lastDotIdx filename.toList with
      | none => (filename, "")
      | some 0 => (filename, "")
      | some pos => (String.mk (filename.toList.take pos),
                     String.mk (filename.toList.drop pos))
    else stemExt
  let stem := if stemExt.1 = "" ∨ stemExt.1 = "." ∨ stemExt.1 = ".." then "target"
              else stemExt.1
  joinPath parent (stem ++ "_" ++ toString suffix_index ++ stemExt.2)

/-- One of the three decisions `target_conflict::prompt_action` can return.
Modelled from the spec: the prompt loop of the missing `target_conflict.h`
yields exactly an Overwrite/Cancel/Rename decision. -/
inductive CAction where
  | overwrite
  | cancel
  | rename
  deriving DecidableEq, Repr

/-- The scripted user interaction consumed by the resolver: either an
action decision (consumed by `prompt_action`) or a raw text line
(consumed by `prompt_new_path`, which — modelled from the spec of the
missing `target_conflict.h` — returns the entered line; the
empty-entry-accepts-default rule lives in `resolve_existing_target`
itself). -/
inductive CEvent where
  | act (a : CAction)
  | line (s : String)
  deriving DecidableEq, Repr

/-- The loop body of `target_path::resolve_existing_target`.

`phase = false` is the outer `while (fs::exists(target_path))` check;
`phase = true` is the inner rename loop.  The script `evs` supplies the
user's decisions and rename entries in order; an exhausted or mismatched
script models the EOF exception (`none`).  `some none` is Cancel
(the C++ function returning `false`); `some (some p)` is resolution with
final target `p`.  File removal on Overwrite is modelled as succeeding
(both Overwrite branches `break` out of the loop). -/
def conflict_run (present isDir : String → Bool) :
    Bool → String → String → Nat → List CEvent → Option (Option String)
  | false, target, _rb, _n, _evs =>
    if present target = false then some (some target)
    else
      match _evs with
      | [] => none
      | CEvent.line _ :: _ => none
      | CEvent.act CAction.overwrite :: _ =>
        if isDir target then some (some target)  -- keep directory, break
        else some (some target)                  -- remove file, break
      | CEvent.act CAction.cancel :: _ => some none
      | CEvent.act CAction.rename :: rest =>
        conflict_run present isDir true target _rb _n rest
  | true, target, rb, n, evs =>
    match evs with
    | [] => none
    | CEvent.act _ :: _ => none
    | CEvent.line s :: rest =>
      let dflt := generate_sequential_candidate rb n
      let entered := trimCopy s
      let cand := if entered = "" then dflt else entered
      if cand = target then
        conflict_run present isDir true target rb
          (if cand = dflt then n + 1 else n) rest
      else if present cand then
        if cand = dflt then
          conflict_run present isDir true target rb (n + 1) rest
        else
          conflict_run present isDir true target cand 1 rest
      else
        conflict_run present isDir false cand
          (if cand = dflt then rb else cand)
          (if cand = dflt then n + 1 else 1) rest

/-- `target_path::resolve_existing_target`: `rename_base` starts at the
original target and `suffix_counter` at 1. -/
def resolve_existing_target (present isDir : String → Bool)
    (target_path : String) (evs : List CEvent) : Option (Option String) :=
  conflict_run present isDir false target_path target_path 1 evs

/-! ## `operation`: split-ZIP handling -/

/-- `operation::is_split_zip_part`. -/
def is_split_zip_part (path : String) : Bool :=
  if extensionOf path = "" then false
  else is_split_zip_extension (lowerStr (extensionOf path))

/-- `operation::find_split_zip_main`: swap the extension for `.zip` and
return that path if it exists on disk, else `""`. -/
def find_split_zip_main (present : String → Bool) (any_part_path : String) :
    String :=
  let main_zip := replaceExtension any_part_path ".zip"
  if present main_zip then main_zip else ""

/-- `operation::is_split_zip`: a `.zNN` part is always split; a `.zip` is
split exactly when the sibling `.z01` exists; anything else is not. -/
def is_split_zip (present : String → Bool) (zip_path : String) : Bool :=
  if extensionOf zip_path = "" then false
  else
    let ext := lowerStr (extensionOf zip_path)
    if is_split_zip_part zip_path then true
    else if ext ≠ ".zip" then false
    else present (replaceExtension zip_path ".z01")

/-! ## `operation`: archive layout planning

Canonical absolute paths are component lists (`[] = "/"`); this models
the output of `fs::weakly_canonical` on the POSIX filesystem, where every
component is a plain name (not `""`, `"."` or `".."`). -/

/-- A canonical absolute path as its list of name components. -/
abbrev CPath := List String

/-- A component of a canonicalised path: a plain name. -/
def isCanonicalComp (s : String) : Bool :=
  s ≠ "" && s ≠ "." && s ≠ ".."

/-- All components of the path are plain names. -/
def isCanonicalPath (p : CPath) : Bool :=
  p.all isCanonicalComp

/-- `fs::path::parent_path` on canonical absolute paths
(the parent of `/` is `/`). -/
def parentPath (p : CPath) : CPath :=
  p.dropLast

/-- Length of the longest common prefix of two component lists. -/
def commonPrefixLen : CPath → CPath → Nat
  | a :: as, b :: bs => if a = b then commonPrefixLen as bs + 1 else 0
  | _, _ => 0

/-- `fs::relative(target, base)` for canonical absolute paths sharing the
root: `..` segments up to the common prefix, then the remainder; `.` when
the paths are equal. -/
def lexRelative (base target : CPath) : CPath :=
  let k := commonPrefixLen base target
  let ups := List.replicate (base.length - k) ".."
  let rest := target.drop k
  if ups.isEmpty ∧ rest.isEmpty then ["."] else ups ++ rest

/-- `operation::is_descendant_or_same`: the relative path from `base` to
`target` contains no `..` segment. -/
def is_descendant_or_same (base target : CPath) : Bool :=
  let rel := lexRelative base target
  if rel.isEmpty then true else rel.all (fun part => part ≠ "..")

/-- The upward walk of `operation::determine_common_base`, recursing on
the reversed component list of the candidate base so that each
`parent_path` step (`dropLast`) is structural.  The `[]` case is the root;
for canonical inputs every absolute path is a descendant of the root, so
it matches the C++ `root_path()` fallback. -/
def common_base_walk (paths : List CPath) : List String → CPath
  | [] => []
  | c :: rest =>
    if paths.all (fun p => is_descendant_or_same ((c :: rest).reverse) p) then
      (c :: rest).reverse
    else common_base_walk paths rest

/-- `operation::determine_common_base`: start from the first source's
parent and walk upward until every source is a descendant-or-self.
(The `paths = []` case returns the current directory in C++; it is
unreachable from `compress`, which rejects empty source lists first.) -/
def determine_common_base (paths : List CPath) : CPath :=
  match paths with
  | [] => []
  | p :: _ => common_base_walk paths (parentPath p).reverse

/-- `operation::CompressionSource` over canonical paths. -/
structure CompressionSource where
  path : CPath
  include_contents : Bool
  deriving DecidableEq, Repr

/-- The `ArchiveLayout` computed by `operation::compress` before the tool
command is assembled: base directory plus per-source relative items. -/
structure ArchiveLayout where
  base_dir : CPath
  items : List CPath
  deriving DecidableEq, Repr

/-- The single-contents-mode test of `operation::compress`: exactly one
source, flagged `include_contents`, and a directory. -/
def single_contents_mode (isDir : CPath → Bool)
    (sources : List CompressionSource) : Bool :=
  match sources with
  | [src] => src.include_contents && isDir src.path
  | _ => false

/-- The item computed for one canonical source in `operation::compress`:
the path relative to the base, or the bare filename (the whole path for
the root) when that relative path is empty or `.`. -/
def layout_item (base : CPath) (canonical : CPath) : CPath :=
  let rel := lexRelative base canonical
  if rel.isEmpty ∨ rel = ["."] then
    match canonical.getLast? with
    | some name => [name]
    | none => canonical
  else rel

/-- The layout-planning prefix of `operation::compress` (`main.cpp`
lines 1300–1353): reject an empty source list and missing sources, then
either single-contents mode (`base = the source`, `items = ["."]`) or the
common-base computation with per-source relative items.
`fs::weakly_canonical` is the identity on the already-canonical `CPath`
inputs. -/
def plan_layout (present isDir : CPath → Bool)
    (sources : List CompressionSource) : Except ErrorCode ArchiveLayout :=
  if sources.isEmpty then Except.error ErrorCode.MISSING_ARGS
  else if sources.any (fun s => present s.path = false) then
    Except.error ErrorCode.INVALID_SOURCE
  else
    let canonical := sources.map (fun s => s.path)
    if single_contents_mode isDir sources then
      Except.ok ⟨canonical.headD [], [["."]]⟩
    else
      let base := determine_common_base canonical
      Except.ok ⟨base, canonical.map (layout_item base)⟩

/-! ## `operation`: tool command construction

The builders model the command-assembly part of `operation::compress`
(after layout planning) and `operation::decompress` (after target
directory creation): the emitted warnings, and either an error or the
`(tool, argument vector)` pair handed to `execute_command`.
`absP` models `fs::absolute` and `avail` models `is_tool_available`. -/

/-- The i18n `warning_tar_password` message. -/
def warning_tar_password : String :=
  "Warning: Password protection is not supported for tar formats. The password will be ignored."

deriving instance DecidableEq for Except

/-- Result of building one external command: warnings printed on the way,
and either an error or the tool plus its argument vector. -/
structure BuildResult where
  warnings : List String
  result : Except ErrorCode (String × List String)
  deriving DecidableEq, Repr

/-- `operation::build_7z_extract_args`. -/
def build_7z_extract_args (absP : String → String)
    (source_path target_dir_path password : String) : List String :=
  ["x"] ++ (if password ≠ "" then ["-p" ++ password] else []) ++
    [absP source_path, "-o" ++ absP target_dir_path, "-y"]

/-- The command-construction `switch` of `operation::compress`
(`main.cpp` lines 1362–1438). -/
def compress_command (absP : String → String) (avail : String → Bool)
    (target_format : FileType) (items_to_archive : List String)
    (target_path password : String) (compression_level : Nat) : BuildResult :=
  match target_format with
  | FileType.ARCHIVE_TAR | FileType.ARCHIVE_TAR_GZ
  | FileType.ARCHIVE_TAR_BZ2 | FileType.ARCHIVE_TAR_XZ =>
    let warns := if password ≠ "" then [warning_tar_password] else []
    if avail "tar" = false then ⟨warns, Except.error ErrorCode.TOOL_NOT_FOUND⟩
    else
      let flags :=
        if target_format = FileType.ARCHIVE_TAR then "-cf"
        else if target_format = FileType.ARCHIVE_TAR_GZ then "-czf"
        else if target_format = FileType.ARCHIVE_TAR_BZ2 then "-cjf"
        else "-cJf"
      ⟨warns, Except.ok ("tar", [flags, absP target_path] ++ items_to_archive)⟩
  | FileType.ARCHIVE_ZIP =>
    if avail "zip" = false then ⟨[], Except.error ErrorCode.TOOL_NOT_FOUND⟩
    else
      let args := (if password ≠ "" then ["-P", password] else []) ++
        (if 0 < compression_level then ["-" ++ toString compression_level] else []) ++
        ["-r", absP target_path] ++ items_to_archive
      ⟨[], Except.ok ("zip", args)⟩
  | FileType.ARCHIVE_7Z =>
    if avail "7z" = false then ⟨[], Except.error ErrorCode.TOOL_NOT_FOUND⟩
    else
      let args := ["a"] ++ (if password ≠ "" then ["-p" ++ password] else []) ++
        (if 0 < compression_level then ["-mx=" ++ toString compression_level] else []) ++
        [absP target_path] ++ items_to_archive
      ⟨[], Except.ok ("7z", args)⟩
  | FileType.ARCHIVE_LZ4 =>
    if avail "lz4" = false then ⟨[], Except.error ErrorCode.TOOL_NOT_FOUND⟩
    else if items_to_archive.length ≠ 1 then
      ⟨[], Except.error ErrorCode.UNKNOWN_FORMAT⟩
    else
      let args := (if 0 < compression_level then ["-" ++ toString compression_level] else []) ++
        ["-r", items_to_archive.headD "", absP target_path]
      ⟨[], Except.ok ("lz4", args)⟩
  | FileType.ARCHIVE_ZSTD =>
    if avail "zstd" = false then ⟨[], Except.error ErrorCode.TOOL_NOT_FOUND⟩
    else if items_to_archive.length ≠ 1 then
      ⟨[], Except.error ErrorCode.UNKNOWN_FORMAT⟩
    else
      let args := (if 0 < compression_level then ["-" ++ toString compression_level] else []) ++
        ["-r", items_to_archive.headD "", "-o", absP target_path]
      ⟨[], Except.ok ("zstd", args)⟩
  | FileType.ARCHIVE_XAR =>
    if avail "xar" = false then ⟨[], Except.error ErrorCode.TOOL_NOT_FOUND⟩
    else ⟨[], Except.ok ("xar", ["-cf", absP target_path] ++ items_to_archive)⟩
  | _ => ⟨[], Except.error ErrorCode.UNKNOWN_FORMAT⟩

/-- The command-construction `switch` of `operation::decompress`
(`main.cpp` lines 1495–1583).  `present` feeds the split-ZIP sibling
checks. -/
def decompress_command (absP : String → String) (avail : String → Bool)
    (present : String → Bool) (source_type : FileType)
    (source_path target_dir_path password : String) : BuildResult :=
  match source_type with
  | FileType.ARCHIVE_TAR | FileType.ARCHIVE_TAR_GZ
  | FileType.ARCHIVE_TAR_BZ2 | FileType.ARCHIVE_TAR_XZ =>
    let warns := if password ≠ "" then [warning_tar_password] else []
    if avail "tar" = false then ⟨warns, Except.error ErrorCode.TOOL_NOT_FOUND⟩
    else
      let flags :=
        if source_type = FileType.ARCHIVE_TAR then "-xf"
        else if source_type = FileType.ARCHIVE_TAR_GZ then "-xzf"
        else if source_type = FileType.ARCHIVE_TAR_BZ2 then "-xjf"
        else "-xJf"
      ⟨warns, Except.ok ("tar", [flags, absP source_path, "-C", absP target_dir_path])⟩
  | FileType.ARCHIVE_ZIP =>
    if is_split_zip present source_path then
      if avail "7z" = false then ⟨[], Except.error ErrorCode.TOOL_NOT_FOUND⟩
      else if is_split_zip_part source_path then
        let actual := find_split_zip_main present source_path
        if actual = "" then ⟨[], Except.error ErrorCode.INVALID_SOURCE⟩
        else ⟨[], Except.ok ("7z", build_7z_extract_args absP actual target_dir_path password)⟩
      else
        ⟨[], Except.ok ("7z", build_7z_extract_args absP source_path target_dir_path password)⟩
    else
      if avail "unzip" = false then ⟨[], Except.error ErrorCode.TOOL_NOT_FOUND⟩
      else
        let args := (if password ≠ "" then ["-P", password] else []) ++
          ["-o", absP source_path, "-d", absP target_dir_path]
        ⟨[], Except.ok ("unzip", args)⟩
  | FileType.ARCHIVE_RAR =>
    if avail "unrar" = false then ⟨[], Except.error ErrorCode.TOOL_NOT_FOUND⟩
    else
      let args := ["x"] ++ (if password ≠ "" then ["-p" ++ password] else []) ++
        ["-o+", absP source_path, absP target_dir_path]
      ⟨[], Except.ok ("unrar", args)⟩
  | FileType.ARCHIVE_7Z =>
    if avail "7z" = false then ⟨[], Except.error ErrorCode.TOOL_NOT_FOUND⟩
    else ⟨[], Except.ok ("7z", build_7z_extract_args absP source_path target_dir_path password)⟩
  | FileType.ARCHIVE_LZ4 =>
    if avail "lz4" = false then ⟨[], Except.error ErrorCode.TOOL_NOT_FOUND⟩
    else ⟨[], Except.ok ("lz4", ["-d", absP source_path, absP target_dir_path])⟩
  | FileType.ARCHIVE_ZSTD =>
    if avail "zstd" = false then ⟨[], Except.error ErrorCode.TOOL_NOT_FOUND⟩
    else ⟨[], Except.ok ("zstd", ["-d", absP source_path, "-o", absP target_dir_path])⟩
  | FileType.ARCHIVE_XAR =>
    if avail "xar" = false then ⟨[], Except.error ErrorCode.TOOL_NOT_FOUND⟩
    else ⟨[], Except.ok ("xar", ["-xf", absP source_path, "-C", absP target_dir_path])⟩
  | _ => ⟨[], Except.error ErrorCode.UNKNOWN_FORMAT⟩

/-! ## `main`: the pre-execution pipeline fragments -/

/-- The single-source command-line path of `main` (`main.cpp` lines
1888–1918): the same-entity guard, recognition, the `--format` override,
and the compression-format check.  It returns the recognition result the
later stages (conflict resolution, command building, execution) consume;
every external command is built only from an `ok` outcome. -/
def run_single (fs : FS) (source_path target_path force_format : String) :
    Except ErrorCode RecognitionResult :=
  if fs.present source_path ∧ fs.present target_path ∧
      fs.equiv source_path target_path then Except.error ErrorCode.SAME_PATH
  else
    match recognize fs source_path target_path with
    | Except.error e => Except.error e
    | Except.ok result =>
      let withForce : Except ErrorCode RecognitionResult :=
        if force_format ≠ "" then
          let forced := parse_format_string force_format
          if forced = FileType.UNKNOWN then Except.error ErrorCode.UNKNOWN_FORMAT
          else if result.operation = OperationType.COMPRESS then
            Except.ok { result with target_type_hint := forced }
          else
            Except.ok { result with source_type := forced }
        else Except.ok result
      match withForce with
      | Except.error e => Except.error e
      | Except.ok r =>
        if r.operation = OperationType.COMPRESS ∧
            r.target_type_hint = FileType.UNKNOWN then
          Except.error ErrorCode.UNKNOWN_FORMAT
        else Except.ok r

/-- The multi-source command-line path of `main` (`main.cpp` lines
1848–1872): the per-source same-entity guard, then target-format
determination.  It returns the format that the later compression stages
consume. -/
def run_multi (fs : FS) (source_paths : List String)
    (target_path force_format : String) : Except ErrorCode FileType :=
  if fs.present target_path ∧
      source_paths.any (fun src => fs.present src && fs.equiv src target_path) then
    Except.error ErrorCode.SAME_PATH
  else
    let target_type := recognize_by_extension target_path
    let withForce : Except ErrorCode FileType :=
      if force_format ≠ "" then
        let forced := parse_format_string force_format
        if forced = FileType.UNKNOWN then Except.error ErrorCode.UNKNOWN_FORMAT
        else Except.ok forced
      else Except.ok target_type
    match withForce with
    | Except.error e => Except.error e
    | Except.ok t =>
      if t = FileType.UNKNOWN then Except.error ErrorCode.UNKNOWN_FORMAT
      else Except.ok t

/-! ## General lemmas about the embedded functions -/

/-- Both branches of an `if` land in `S`, so the `if` does. -/
theorem ite_mem_of_mem {α : Type} (S : List α) (c : Prop) [Decidable c]
    {a b : α} (ha : a ∈ S) (hb : b ∈ S) : (if c then a else b) ∈ S := by
  split <;> assumption

/-- The range of the extension classifier: archive tags and `UNKNOWN`. -/
theorem recognize_by_extension_mem (p : String) :
    recognize_by_extension p ∈
      [FileType.UNKNOWN, FileType.ARCHIVE_TAR, FileType.ARCHIVE_ZIP,
       FileType.ARCHIVE_RAR, FileType.ARCHIVE_7Z, FileType.ARCHIVE_LZ4,
       FileType.ARCHIVE_ZSTD, FileType.ARCHIVE_XAR, FileType.ARCHIVE_TAR_GZ,
       FileType.ARCHIVE_TAR_BZ2, FileType.ARCHIVE_TAR_XZ] := by
  simp only [recognize_by_extension]
  repeat' apply ite_mem_of_mem
  all_goals decide

/-- The extension classifier only produces archive tags or `UNKNOWN`,
never `REGULAR_FILE` or `DIRECTORY`. -/
theorem recognize_by_extension_ne_file_dir (p : String) :
    recognize_by_extension p ≠ FileType.REGULAR_FILE ∧
    recognize_by_extension p ≠ FileType.DIRECTORY := by
  have hm := recognize_by_extension_mem p
  simp only [List.mem_cons, List.not_mem_nil, or_false] at hm
  constructor <;> (intro h; rw [h] at hm; rcases hm with h' | h' | h' | h' | h' | h' | h' | h' | h' | h' | h' <;> exact FileType.noConfusion h')

theorem commonPrefixLen_le_left (a b : CPath) :
    commonPrefixLen a b ≤ a.length := by
  induction a generalizing b with
  | nil => simp [commonPrefixLen]
  | cons x xs ih =>
    cases b with
    | nil => simp [commonPrefixLen]
    | cons y ys =>
      by_cases h : x = y <;> simp [commonPrefixLen, h]
      exact ih ys

theorem commonPrefixLen_eq_length_iff (a b : CPath) :
    commonPrefixLen a b = a.length ↔ a <+: b := by
  induction a generalizing b with
  | nil => simp [commonPrefixLen]
  | cons x xs ih =>
    cases b with
    | nil =>
      simp [commonPrefixLen]
    | cons y ys =>
      by_cases h : x = y
      · subst h
        simp [commonPrefixLen, List.cons_prefix_cons, ih ys]
      · simp [commonPrefixLen, h, List.cons_prefix_cons]

/-- For a canonicalised target, the code's descendant test coincides with
the component-list prefix relation. -/
theorem is_descendant_or_same_iff_ancestor (base p : CPath)
    (hp : isCanonicalPath p = true) :
    is_descendant_or_same base p = true ↔ base <+: p := by
  have hrest : ∀ part ∈ p.drop (commonPrefixLen base p), part ≠ ".." := by
    intro part hmem
    have hmem' : part ∈ p := List.mem_of_mem_drop hmem
    have h3 := (List.all_eq_true.mp hp) part hmem'
    simp only [isCanonicalComp, Bool.and_eq_true, decide_eq_true_eq, ne_eq] at h3
    exact h3.2
  have hk := commonPrefixLen_le_left base p
  unfold is_descendant_or_same lexRelative
  by_cases hboth : (List.replicate (base.length - commonPrefixLen base p)
      (".." : String)).isEmpty = true ∧ (p.drop (commonPrefixLen base p)).isEmpty = true
  · have hkeq : commonPrefixLen base p = base.length := by
      have h1 := hboth.1
      simp only [List.isEmpty_iff, List.replicate_eq_nil_iff] at h1
      omega
    simp only [hboth, and_self, if_true]
    simp [(commonPrefixLen_eq_length_iff base p).mp hkeq]
  · simp only [hboth, if_false]
    constructor
    · intro h
      rw [if_neg] at h
      · have hall := List.all_eq_true.mp h
        have hups : base.length - commonPrefixLen base p = 0 := by
          by_contra hne
          have hmem : (".." : String) ∈
              List.replicate (base.length - commonPrefixLen base p) (".." : String) ++
                p.drop (commonPrefixLen base p) := by
            apply List.mem_append_left
            exact List.mem_replicate.mpr ⟨hne, rfl⟩
          have := hall _ hmem
          simp at this
        have hkeq : commonPrefixLen base p = base.length := by omega
        exact (commonPrefixLen_eq_length_iff base p).mp hkeq
      · intro hemp
        rw [List.isEmpty_iff] at hemp
        rcases List.append_eq_nil.mp hemp with ⟨h1, h2⟩
        exact hboth ⟨by simp [h1], by simp [h2]⟩
    · intro hpre
      have hkeq : commonPrefixLen base p = base.length :=
        (commonPrefixLen_eq_length_iff base p).mpr hpre
      rw [if_neg]
      · apply List.all_eq_true.mpr
        intro part hmem
        rcases List.mem_append.mp hmem with hl | hr
        · rw [hkeq] at hl
          simp at hl
        · simpa using hrest part hr
      · intro hemp
        rw [List.isEmpty_iff] at hemp
        rcases List.append_eq_nil.mp hemp with ⟨h1, h2⟩
        exact hboth ⟨by simp [h1], by simp [h2]⟩

/-- The upward walk only stops at a candidate of which every (canonical)
source is a descendant-or-self. -/
theorem common_base_walk_desc (paths : List CPath)
    (hcanon : ∀ p ∈ paths, isCanonicalPath p = true) (rbase : List String) :
    ∀ p ∈ paths, is_descendant_or_same (common_base_walk paths rbase) p = true := by
  induction rbase with
  | nil =>
    intro p hp
    rw [is_descendant_or_same_iff_ancestor _ _ (hcanon p hp)]
    simp [common_base_walk]
  | cons c rest ih =>
    intro p hp
    unfold common_base_walk
    split
    · next hall => exact (List.all_eq_true.mp hall) p hp
    · exact ih p hp

/-- `determine_common_base` returns a common ancestor: a component-list
prefix of every canonical source. -/
theorem determine_common_base_ancestor (paths : List CPath)
    (hne : paths ≠ []) (hcanon : ∀ p ∈ paths, isCanonicalPath p = true) :
    ∀ p ∈ paths, determine_common_base paths <+: p := by
  intro p hp
  rw [← is_descendant_or_same_iff_ancestor _ _ (hcanon p hp)]
  match paths, hne with
  | q :: rest, _ =>
    exact common_base_walk_desc (q :: rest) hcanon (parentPath q).reverse p hp

/-- When the base is a prefix of a canonical source, the planned item is
the remainder of the source past the base, or the bare filename when the
source *is* the base. -/
theorem layout_item_of_ancestor (base p : CPath) (hp : isCanonicalPath p = true)
    (hpre : base <+: p) :
    layout_item base p =
      if p = base then
        (match p.getLast? with
         | some name => [name]
         | none => p)
      else p.drop base.length := by
  have hkeq : commonPrefixLen base p = base.length :=
    (commonPrefixLen_eq_length_iff base p).mpr hpre
  unfold layout_item lexRelative
  rw [hkeq]
  simp only [Nat.sub_self, List.replicate_zero, List.isEmpty_nil, List.nil_append,
    true_and]
  by_cases heq : p = base
  · subst heq
    simp
  · have hlt : base.length < p.length := by
      rcases Nat.lt_or_ge base.length p.length with h | h
      · exact h
      · exact absurd (hpre.eq_of_length (Nat.le_antisymm hpre.length_le h)).symm heq
    have hdropne : p.drop base.length ≠ [] := by
      intro h
      have := List.drop_eq_nil_iff.mp h
      omega
    have hdropnotdot : p.drop base.length ≠ ["."] := by
      intro h
      have hmem : ("." : String) ∈ p.drop base.length := by simp [h]
      have hmem' : ("." : String) ∈ p := List.mem_of_mem_drop hmem
      have := (List.all_eq_true.mp hp) _ hmem'
      simp [isCanonicalComp] at this
    simp [List.isEmpty_iff, hdropne, hdropnotdot, heq]

/-! ## Claim theorems -/

/-- C1: for every existing regular file, signature sniffing takes
precedence over the extension: a non-`UNKNOWN` sniff result is the
resolved tag regardless of the file name; an `UNKNOWN` sniff falls back
exactly to the extension classifier; and when both are `UNKNOWN` the path
resolves to `REGULAR_FILE` (a valid compression source), never to an
error. -/
theorem source_type_resolution_precedence (fs : FS) (p : String)
    (hex : fs.present p = true) (hdir : fs.isDir p = false)
    (hfile : fs.isFile p = true) :
    (recognize_by_header (fs.content p) ≠ FileType.UNKNOWN →
       recognize_source_type fs p =
         Except.ok (recognize_by_header (fs.content p))) ∧
    (recognize_by_header (fs.content p) = FileType.UNKNOWN →
     recognize_by_extension p ≠ FileType.UNKNOWN →
       recognize_source_type fs p = Except.ok (recognize_by_extension p)) ∧
    (recognize_by_header (fs.content p) = FileType.UNKNOWN →
     recognize_by_extension p = FileType.UNKNOWN →
       recognize_source_type fs p = Except.ok FileType.REGULAR_FILE) := by
  refine ⟨fun h1 => ?_, fun h1 h2 => ?_, fun h1 h2 => ?_⟩
  · simp [recognize_source_type, hex, hdir, hfile, h1]
  · simp [recognize_source_type, hex, hdir, hfile, h1, h2]
  · simp [recognize_source_type, hex, hdir, hfile, h1, h2]

/-- Sample filesystem for the C1 witness: a single regular file named
with a misleading extension but carrying a ZIP local-file-header
signature. -/
def c1SampleFS : FS where
  present := fun q => q = "archive.rar"
  isDir := fun _ => false
  isFile := fun q => q = "archive.rar"
  content := fun _ => [0x50, 0x4B, 0x03, 0x04] ++ List.replicate 12 0
  equiv := fun _ _ => false

/-- C1 witness: the ZIP-signed file named `archive.rar` resolves by its
signature. -/
theorem source_type_resolution_precedence_witness :
    recognize_source_type c1SampleFS "archive.rar" =
      Except.ok (recognize_by_header (c1SampleFS.content "archive.rar")) :=
  (source_type_resolution_precedence c1SampleFS "archive.rar"
    (by decide) (by decide) (by decide)).1 (by decide)

/-- C2: operation inference.  A `Directory`/`RegularFile` source infers
`Compress` with the target hint equal to the extension classifier's
result on the target path, and an `UNKNOWN` hint (no forced format) is
reported as `UnknownFormat` by the pipeline rather than defaulted.  An
archive source infers `Decompress`, failing with `InvalidTarget` exactly
when the target exists and is not a directory. -/
theorem operation_inference_rules (fs : FS) (source target : String)
    (st : FileType) (hst : recognize_source_type fs source = Except.ok st) :
    ((st = FileType.DIRECTORY ∨ st = FileType.REGULAR_FILE) →
       recognize fs source target =
         Except.ok ⟨st, recognize_by_extension target, OperationType.COMPRESS⟩ ∧
       (recognize_by_extension target = FileType.UNKNOWN →
        fs.equiv source target = false →
          run_single fs source target "" = Except.error ErrorCode.UNKNOWN_FORMAT)) ∧
    (¬(st = FileType.DIRECTORY ∨ st = FileType.REGULAR_FILE) →
       (recognize fs source target = Except.error ErrorCode.INVALID_TARGET ↔
          fs.present target = true ∧ fs.isDir target = false) ∧
       (fs.present target = false ∨ fs.isDir target = true →
          ∃ r, recognize fs source target = Except.ok r ∧
            r.source_type = st ∧ r.operation = OperationType.DECOMPRESS)) := by
  have hne := recognize_by_extension_ne_file_dir target
  constructor
  · intro hsrc
    have hrec : recognize fs source target =
        Except.ok ⟨st, recognize_by_extension target, OperationType.COMPRESS⟩ := by
      unfold recognize
      rw [hst]
      simp only [hsrc, if_true]
      by_cases htgt : target = ""
      · subst htgt
        have : recognize_by_extension "" = FileType.UNKNOWN := by decide
        simp [this]
      · by_cases hu : recognize_by_extension target = FileType.UNKNOWN
        · simp [htgt, hu]
        · simp [htgt, hu, hne.1, hne.2]
    refine ⟨hrec, fun hu hsp => ?_⟩
    unfold run_single
    rw [if_neg (by simp [hsp]), hrec]
    simp [hu]
  · intro hsrc
    unfold recognize
    rw [hst]
    simp only [hsrc, if_false]
    constructor
    · constructor
      · intro h
        by_cases hc : fs.present target = true ∧ fs.isDir target = false
        · exact hc
        · rw [if_neg (by simpa using hc)] at h
          exact absurd h (by simp)
      · intro hc
        rw [if_pos (by simpa using hc)]
    · intro hcase
      rw [if_neg]
      · exact ⟨_, rfl, rfl, rfl⟩
      · rcases hcase with h | h <;> simp [h]

/-- Sample filesystem for the C2 witness: an existing directory `docs`
and no other entries. -/
def c2SampleFS : FS where
  present := fun q => q = "docs"
  isDir := fun q => q = "docs"
  isFile := fun _ => false
  content := fun _ => []
  equiv := fun _ _ => false

/-- C2 witness: compressing the directory `docs` toward `docs.tar.gz`
infers `Compress` with hint `TarGz`. -/
theorem operation_inference_rules_witness :
    recognize c2SampleFS "docs" "docs.tar.gz" =
      Except.ok ⟨FileType.DIRECTORY, recognize_by_extension "docs.tar.gz",
        OperationType.COMPRESS⟩ :=
  ((operation_inference_rules c2SampleFS "docs" "docs.tar.gz"
      FileType.DIRECTORY (by decide)).1 (Or.inl rfl)).1

/-- The fallback item used when a source coincides with the base
directory: its bare filename (the whole path for the root). -/
def bareFilename (p : CPath) : CPath :=
  match p.getLast? with
  | some name => [name]
  | none => p

/-- C3: archive layout planning.  A single `include_contents` directory
source yields that source as base with items `["."]`; otherwise the base
is a common ancestor (a component-prefix of every canonical source) and
each item is the source's path past the base, falling back to its bare
filename when the source is the base itself.  The `["/x/a", "/x/b"]`
example yields base `"/x"` with items `["a", "b"]`. -/
theorem archive_layout_plan (present isDir : CPath → Bool)
    (sources : List CompressionSource) (hne : sources ≠ [])
    (hex : ∀ s ∈ sources, present s.path = true)
    (hcanon : ∀ s ∈ sources, isCanonicalPath s.path = true) :
    (∀ src, sources = [⟨src, true⟩] → isDir src = true →
       plan_layout present isDir sources = Except.ok ⟨src, [["."]]⟩) ∧
    (single_contents_mode isDir sources = false →
       ∃ base,
         plan_layout present isDir sources =
           Except.ok ⟨base, sources.map (fun s =>
             if s.path = base then bareFilename s.path
             else s.path.drop base.length)⟩ ∧
         base = determine_common_base (sources.map (fun s => s.path)) ∧
         ∀ s ∈ sources, base <+: s.path) ∧
    (plan_layout (fun _ => true) (fun _ => false)
        [⟨["x", "a"], false⟩, ⟨["x", "b"], false⟩] =
      Except.ok ⟨["x"], [["a"], ["b"]]⟩) := by
  have hnoabsent : ¬ ((sources.any fun s => present s.path = false) = true) := by
    simp only [List.any_eq_true, decide_eq_true_eq]
    rintro ⟨s, hs, hbad⟩
    simp [hex s hs] at hbad
  refine ⟨fun src hsrc hdir => ?_, fun hscm => ?_, by decide⟩
  · subst hsrc
    unfold plan_layout
    rw [if_neg (by simp), if_neg hnoabsent,
      if_pos (by simp [single_contents_mode, hdir])]
    rfl
  · have hmapne : sources.map (fun s => s.path) ≠ [] := by
      simpa using hne
    have hmapcanon : ∀ p ∈ sources.map (fun s => s.path),
        isCanonicalPath p = true := by
      intro p hp
      rcases List.mem_map.mp hp with ⟨s, hs, rfl⟩
      exact hcanon s hs
    have hanc : ∀ s ∈ sources,
        determine_common_base (sources.map (fun t => t.path)) <+: s.path :=
      fun s hs => determine_common_base_ancestor (sources.map (fun t => t.path))
        hmapne hmapcanon s.path (List.mem_map.mpr ⟨s, hs, rfl⟩)
    refine ⟨determine_common_base (sources.map (fun s => s.path)), ?_, rfl,
      hanc⟩
    unfold plan_layout
    rw [if_neg (by simp [hne]), if_neg hnoabsent, if_neg (by simp [hscm])]
    have hitems :
        (sources.map (fun s => s.path)).map
            (layout_item (determine_common_base (sources.map (fun s => s.path)))) =
          sources.map (fun s =>
            if s.path = determine_common_base (sources.map (fun t => t.path)) then
              bareFilename s.path
            else s.path.drop
              (determine_common_base (sources.map (fun t => t.path))).length) := by
      rw [List.map_map]
      apply List.map_congr_left
      intro s hs
      simpa [bareFilename, Function.comp] using
        layout_item_of_ancestor _ s.path (hcanon s hs) (hanc s hs)
    simp only [hitems]

/-- C3 witness: a single directory source `/x/dir` with
`include_contents` set produces base `/x/dir` and items `["."]`. -/
theorem archive_layout_plan_witness :
    plan_layout (fun _ => true) (fun _ => true)
      [⟨["x", "dir"], true⟩] = Except.ok ⟨["x", "dir"], [["."]]⟩ :=
  (archive_layout_plan (fun _ => true) (fun _ => true)
      [⟨["x", "dir"], true⟩] (by decide) (by decide) (by decide)).1
    ["x", "dir"] rfl rfl

/-- C4: the rename flow of the conflict resolver.  For an existing
`out.zip` the first proposed default is `out_1.zip` and an empty entry
accepts it; when `out_1.zip` also exists the next default is `out_2.zip`.
In general the counter starts at 1, increments each time the same default
is re-offered after colliding (or matching the current path), and resets
to 1 relative to a new base when the user supplies a custom rename path;
the compound tar extensions are kept as a unit when inserting `_<N>`, and
an empty or dot stem is replaced by the placeholder stem. -/
theorem conflict_rename_counter :
    (resolve_existing_target (fun p => p = "out.zip") (fun _ => false)
        "out.zip" [CEvent.act CAction.rename, CEvent.line ""] =
      some (some "out_1.zip")) ∧
    (resolve_existing_target (fun p => p = "out.zip" ∨ p = "out_1.zip")
        (fun _ => false) "out.zip"
        [CEvent.act CAction.rename, CEvent.line "", CEvent.line ""] =
      some (some "out_2.zip")) ∧
    (∀ (present isDir : String → Bool) (t : String),
       present t = true →
       present (generate_sequential_candidate t 1) = true →
       present (generate_sequential_candidate t 2) = false →
       generate_sequential_candidate t 1 ≠ t →
       generate_sequential_candidate t 2 ≠ t →
       resolve_existing_target present isDir t
           [CEvent.act CAction.rename, CEvent.line "", CEvent.line ""] =
         some (some (generate_sequential_candidate t 2))) ∧
    (∀ (present isDir : String → Bool) (t s : String),
       present t = true →
       trimCopy s = s → s ≠ "" → s ≠ t →
       present s = true → s ≠ generate_sequential_candidate t 1 →
       present (generate_sequential_candidate s 1) = false →
       generate_sequential_candidate s 1 ≠ t →
       resolve_existing_target present isDir t
           [CEvent.act CAction.rename, CEvent.line s, CEvent.line ""] =
         some (some (generate_sequential_candidate s 1))) ∧
    (generate_sequential_candidate "a.tar.gz" 1 = "a_1.tar.gz" ∧
     generate_sequential_candidate "a.tar.bz2" 1 = "a_1.tar.bz2" ∧
     generate_sequential_candidate "a.tar.xz" 1 = "a_1.tar.xz" ∧
     generate_sequential_candidate "a.tar.zst" 1 = "a_1.tar.zst" ∧
     generate_sequential_candidate "a.tar.lz4" 7 = "a_7.tar.lz4") ∧
    (generate_sequential_candidate "x/" 1 = "x/target_1" ∧
     generate_sequential_candidate "." 1 = "target_1" ∧
     generate_sequential_candidate ".." 2 = "target_2.") := by
  have htrim : trimCopy "" = "" := rfl
  refine ⟨by decide, by decide, ?_, ?_, by decide, by decide⟩
  · intro present isDir t hp h1 h2 hne1 hne2
    unfold resolve_existing_target
    simp only [conflict_run, hp, htrim]
    simp [hp, h1, h2, hne1, hne2]
  · intro present isDir t s hp htr hsne hst hps hsd1 hg1 hg1t
    unfold resolve_existing_target
    simp only [conflict_run, hp, htr]
    simp [htrim, hp, htr, hsne, hst, hps, hsd1, hg1, hg1t]

/-- C4 witness: the general counter-increment rule applied to the
concrete `out.zip` scenario. -/
theorem conflict_rename_counter_witness :
    resolve_existing_target
        (fun p => p = "out.zip" ∨ p = "out_1.zip") (fun _ => false) "out.zip"
        [CEvent.act CAction.rename, CEvent.line "", CEvent.line ""] =
      some (some (generate_sequential_candidate "out.zip" 2)) :=
  conflict_rename_counter.2.2.1
    (fun p => p = "out.zip" ∨ p = "out_1.zip") (fun _ => false) "out.zip"
    (by decide) (by decide) (by decide) (by decide) (by decide)

/-- C5: the split-ZIP predicate.  A lower-cased `.zNN` extension is split
for every filesystem state (no sibling check); a `.zip` extension is
split exactly when the `.z01` sibling exists; a bare `a.zip` with no
sibling is not split; any other extension (or none) is not split. -/
theorem split_zip_predicate :
    (∀ (present : String → Bool) (p : String),
       is_split_zip_extension (lowerStr (extensionOf p)) = true →
       is_split_zip present p = true) ∧
    (∀ (present : String → Bool) (p : String),
       lowerStr (extensionOf p) = ".zip" →
       is_split_zip present p = present (replaceExtension p ".z01")) ∧
    (is_split_zip (fun p => p = "a.zip") "a.zip" = false) ∧
    (is_split_zip (fun _ => false) "a.z02" = true) ∧
    (∀ (present : String → Bool) (p : String),
       lowerStr (extensionOf p) ≠ ".zip" →
       is_split_zip_extension (lowerStr (extensionOf p)) = false →
       is_split_zip present p = false) := by
  refine ⟨fun present p h => ?_, fun present p h => ?_, by decide, by decide,
    fun present p h1 h2 => ?_⟩
  · have hne : extensionOf p ≠ "" := by
      intro h0
      rw [h0] at h
      exact absurd h (by decide)
    simp [is_split_zip, is_split_zip_part, hne, h]
  · have hne : extensionOf p ≠ "" := by
      intro h0
      rw [h0] at h
      exact absurd h (by decide)
    have hzip : is_split_zip_extension ".zip" = false := by decide
    have hpart : is_split_zip_part p = false := by
      simp [is_split_zip_part, hne, h, hzip]
    simp [is_split_zip, hne, hpart, h]
  · by_cases hne : extensionOf p = ""
    · simp [is_split_zip, hne]
    · simp [is_split_zip, is_split_zip_part, hne, h1, h2]

/-- C5 witness: the `.zip`-sibling rule instantiated at `a.zip` with the
sibling `a.z01` present. -/
theorem split_zip_predicate_witness :
    is_split_zip (fun q => q = "a.z01") "a.zip" =
      (fun q : String => decide (q = "a.z01")) (replaceExtension "a.zip" ".z01") :=
  split_zip_predicate.2.1 (fun q => q = "a.z01") "a.zip" (by decide)

/-- C6 counterexample: the claim says a file shorter than 4 bytes whose
bytes match the 2-byte GZIP magic (or 3-byte BZh) is still classified by
that signature; the code instead returns `UNKNOWN` for every file shorter
than 16 bytes, because the initial 16-byte read sets the stream fail bit
on short files and `recognize_by_header` checks `fail()`. -/
theorem header_short_read_counterexample :
    recognize_by_header [0x1F, 0x8B] = FileType.UNKNOWN ∧
    recognize_by_header [0x42, 0x5A, 0x68] = FileType.UNKNOWN := by
  decide

/-- C6 (amended): the initial header read must yield at least 16 bytes —
any shorter (hence failed) read returns `Unknown` immediately; for files
of at least 16 bytes the 2-byte GZIP signature is honoured, and the later
tar checks (5 bytes at offset 257, full 512-byte block) are skipped when
the file is too short, falling through to `Unknown` when nothing
matches. -/
theorem header_short_read_amended :
    (∀ bytes : List Nat, bytes.length < 16 →
       recognize_by_header bytes = FileType.UNKNOWN) ∧
    (∀ bytes : List Nat, 16 ≤ bytes.length →
       bytes.getD 0 0 = 0x1F → bytes.getD 1 0 = 0x8B →
       recognize_by_header bytes = FileType.ARCHIVE_TAR_GZ) ∧
    (∀ bytes : List Nat, 16 ≤ bytes.length → bytes.length < 262 →
       ¬(bytes.getD 0 0 = 0x50 ∧ bytes.getD 1 0 = 0x4B ∧
         ((bytes.getD 2 0 = 0x03 ∧ bytes.getD 3 0 = 0x04) ∨
          (bytes.getD 2 0 = 0x05 ∧ bytes.getD 3 0 = 0x06) ∨
          (bytes.getD 2 0 = 0x01 ∧ bytes.getD 3 0 = 0x02))) →
       ¬(bytes.getD 0 0 = 0x52 ∧ bytes.getD 1 0 = 0x61 ∧
         bytes.getD 2 0 = 0x72 ∧ bytes.getD 3 0 = 0x21) →
       ¬(6 ≤ min 16 bytes.length ∧ bytes.getD 0 0 = 0x37 ∧
         bytes.getD 1 0 = 0x7A ∧ bytes.getD 2 0 = 0xBC ∧
         bytes.getD 3 0 = 0xAF ∧ bytes.getD 4 0 = 0x27 ∧
         bytes.getD 5 0 = 0x1C) →
       ¬(bytes.getD 0 0 = 0x1F ∧ bytes.getD 1 0 = 0x8B) →
       ¬(bytes.getD 0 0 = 0x42 ∧ bytes.getD 1 0 = 0x5A ∧
         bytes.getD 2 0 = 0x68) →
       ¬(6 ≤ min 16 bytes.length ∧ bytes.getD 0 0 = 0xFD ∧
         bytes.getD 1 0 = 0x37 ∧ bytes.getD 2 0 = 0x7A ∧
         bytes.getD 3 0 = 0x58 ∧ bytes.getD 4 0 = 0x5A ∧
         bytes.getD 5 0 = 0x00) →
       ¬(bytes.getD 0 0 = 0x04 ∧ bytes.getD 1 0 = 0x22 ∧
         bytes.getD 2 0 = 0x4D ∧ bytes.getD 3 0 = 0x18) →
       ¬((bytes.getD 0 0 = 0x28 ∧ bytes.getD 1 0 = 0xB5 ∧
          bytes.getD 2 0 = 0x2F ∧ bytes.getD 3 0 = 0xFD) ∨
         (bytes.getD 0 0 = 0x22 ∧ bytes.getD 1 0 = 0xB5 ∧
          bytes.getD 2 0 = 0x2F ∧ bytes.getD 3 0 = 0xFD)) →
       recognize_by_header bytes = FileType.UNKNOWN) := by
  refine ⟨fun bytes hlen => ?_, fun bytes hlen h0 h1 => ?_,
    fun bytes hlen hsh hz hr h7 hg hb hx hl hzs => ?_⟩
  · unfold recognize_by_header
    rw [if_pos (Or.inr hlen)]
  · unfold recognize_by_header
    rw [if_neg (by omega)]
    dsimp only
    rw [if_neg (by rintro ⟨ha, -⟩; rw [h0] at ha; exact absurd ha (by decide)),
      if_neg (by rintro ⟨ha, -⟩; rw [h0] at ha; exact absurd ha (by decide)),
      if_neg (by rintro ⟨-, ha, -⟩; rw [h0] at ha; exact absurd ha (by decide)),
      if_pos ⟨h0, h1⟩]
  · have hmin : min 16 bytes.length = 16 := Nat.min_eq_left hlen
    unfold recognize_by_header
    rw [if_neg (by omega), if_neg hz, if_neg hr, if_neg h7, if_neg hg,
      if_neg hb, if_neg hx, if_neg hl, if_neg hzs,
      if_neg (by rintro ⟨h5, -⟩; omega),
      if_neg (by intro hcon; omega)]

/-- C6 (amended) witness: a 16-byte GZIP-signed file classifies as
`TarGz`. -/
theorem header_short_read_amended_witness :
    recognize_by_header ([0x1F, 0x8B] ++ List.replicate 14 0) =
      FileType.ARCHIVE_TAR_GZ :=
  header_short_read_amended.2.1 ([0x1F, 0x8B] ++ List.replicate 14 0)
    (by decide) (by decide) (by decide)

/-- C7: every archive tag the extension classifier can produce has a tool
command construction (compress or decompress) that does not fail with
`UnknownFormat` — including `.rar` (decompress only) and `.xar`. -/
theorem extension_builder_roundtrip (p : String)
    (h : recognize_by_extension p ≠ FileType.UNKNOWN) :
    (compress_command id (fun _ => true) (recognize_by_extension p)
        ["item"] "t" "" 0).result.isOk = true ∨
    (decompress_command id (fun _ => true) (fun _ => false)
        (recognize_by_extension p) "src" "dest" "").result.isOk = true := by
  have hm := recognize_by_extension_mem p
  simp only [List.mem_cons, List.not_mem_nil, or_false] at hm
  rcases hm with h0 | h0 | h0 | h0 | h0 | h0 | h0 | h0 | h0 | h0 | h0
  · exact absurd h0 h
  all_goals rw [h0]
  all_goals first
    | (left; decide)
    | (right; decide)

/-- C7 witness: instantiated at the `.rar` extension, whose tag is served
by the decompression builder. -/
theorem extension_builder_roundtrip_witness :
    (compress_command id (fun _ => true) (recognize_by_extension "a.rar")
        ["item"] "t" "" 0).result.isOk = true ∨
    (decompress_command id (fun _ => true) (fun _ => false)
        (recognize_by_extension "a.rar") "src" "dest" "").result.isOk = true :=
  extension_builder_roundtrip "a.rar" (by decide)

/-- C8: every tar-family format ignores a supplied password: the built
argument vector is the one built with no password (no password flag), the
construction does not fail because of the password (it succeeds whenever
`tar` is available), and the tar-password warning is surfaced — for both
compression and decompression. -/
theorem tar_family_password_ignored (absP : String → String)
    (avail present : String → Bool) (fmt : FileType) (items : List String)
    (target source tdir pw : String) (level : Nat)
    (hfmt : fmt = FileType.ARCHIVE_TAR ∨ fmt = FileType.ARCHIVE_TAR_GZ ∨
            fmt = FileType.ARCHIVE_TAR_BZ2 ∨ fmt = FileType.ARCHIVE_TAR_XZ)
    (hpw : pw ≠ "") (htar : avail "tar" = true) :
    (compress_command absP avail fmt items target pw level).result =
      (compress_command absP avail fmt items target "" level).result ∧
    (compress_command absP avail fmt items target pw level).result.isOk = true ∧
    (compress_command absP avail fmt items target pw level).warnings =
      [warning_tar_password] ∧
    (decompress_command absP avail present fmt source tdir pw).result =
      (decompress_command absP avail present fmt source tdir "").result ∧
    (decompress_command absP avail present fmt source tdir pw).result.isOk = true ∧
    (decompress_command absP avail present fmt source tdir pw).warnings =
      [warning_tar_password] := by
  rcases hfmt with rfl | rfl | rfl | rfl <;>
    simp [compress_command, decompress_command, hpw, htar, Except.isOk, Except.toBool]

/-- C8 witness: the tar.gz instance with a concrete password. -/
theorem tar_family_password_ignored_witness :
    (compress_command id (fun _ => true) FileType.ARCHIVE_TAR_GZ ["docs"]
        "t.tar.gz" "secret" 0).warnings = [warning_tar_password] :=
  (tar_family_password_ignored id (fun _ => true) (fun _ => false)
      FileType.ARCHIVE_TAR_GZ ["docs"] "t.tar.gz" "s" "d" "secret" 0
      (Or.inr (Or.inl rfl)) (by decide) rfl).2.2.1

/-- C9: when source and target resolve to the same filesystem entity,
both the single-source and the multi-source pipeline fail with `SamePath`
before recognition, conflict resolution, or any command construction —
so before any external tool invocation. -/
theorem same_entity_guard :
    (∀ (fs : FS) (s t f : String),
       fs.present s = true → fs.present t = true → fs.equiv s t = true →
       run_single fs s t f = Except.error ErrorCode.SAME_PATH) ∧
    (∀ (fs : FS) (srcs : List String) (t f s : String),
       s ∈ srcs → fs.present s = true → fs.present t = true →
       fs.equiv s t = true →
       run_multi fs srcs t f = Except.error ErrorCode.SAME_PATH) := by
  constructor
  · intro fs s t f hs ht he
    unfold run_single
    rw [if_pos ⟨hs, ht, he⟩]
  · intro fs srcs t f s hmem hs ht he
    unfold run_multi
    rw [if_pos ⟨ht, List.any_eq_true.mpr ⟨s, hmem, by simp [hs, he]⟩⟩]

/-- Sample filesystem for the C9 witness: one entry `a.zip`, with
`fs::equivalent` holding between equal existing paths. -/
def c9SampleFS : FS where
  present := fun q => q = "a.zip"
  isDir := fun _ => false
  isFile := fun q => q = "a.zip"
  content := fun _ => []
  equiv := fun a b => a = b

/-- C9 witness: `hitpag a.zip a.zip` fails with `SamePath`. -/
theorem same_entity_guard_witness :
    run_single c9SampleFS "a.zip" "a.zip" "" =
      Except.error ErrorCode.SAME_PATH :=
  same_entity_guard.1 c9SampleFS "a.zip" "a.zip" ""
    (by decide) (by decide) (by decide)

/-- C10: compressing to Lz4 or Zstd with more than one planned item fails
with `UnknownFormat` at command-construction time (before any tool is
run); with exactly one item the command is built normally. -/
theorem lz4_zstd_single_item (absP : String → String)
    (avail : String → Bool) (items : List String) (target pw : String)
    (level : Nat) (hlz4 : avail "lz4" = true) (hzstd : avail "zstd" = true) :
    (1 < items.length →
       (compress_command absP avail FileType.ARCHIVE_LZ4 items target pw
           level).result = Except.error ErrorCode.UNKNOWN_FORMAT ∧
       (compress_command absP avail FileType.ARCHIVE_ZSTD items target pw
           level).result = Except.error ErrorCode.UNKNOWN_FORMAT) ∧
    (∀ i, items = [i] →
       (compress_command absP avail FileType.ARCHIVE_LZ4 items target pw
           level).result = Except.ok ("lz4",
             (if 0 < level then ["-" ++ toString level] else []) ++
               ["-r", i, absP target]) ∧
       (compress_command absP avail FileType.ARCHIVE_ZSTD items target pw
           level).result = Except.ok ("zstd",
             (if 0 < level then ["-" ++ toString level] else []) ++
               ["-r", i, "-o", absP target])) := by
  constructor
  · intro hlen
    have hne : items.length ≠ 1 := by omega
    simp [compress_command, hlz4, hzstd, hne]
  · intro i hitems
    subst hitems
    simp [compress_command, hlz4, hzstd]

/-- C10 witness: two items fail for Lz4; one item builds the command. -/
theorem lz4_zstd_single_item_witness :
    (compress_command id (fun _ => true) FileType.ARCHIVE_LZ4 ["a", "b"]
        "t.lz4" "" 0).result = Except.error ErrorCode.UNKNOWN_FORMAT :=
  ((lz4_zstd_single_item id (fun _ => true) ["a", "b"] "t.lz4" "" 0
      rfl rfl).1 (by decide)).1

end Hitpag

